import Mathlib

/-!
Verification development for the `StepFilter` traversability filter
(`traversability_estimation_filters/src/StepFilter.cpp`).

The raster ("grid map") is modelled as a rectangular grid of cells indexed by
`ℕ × ℕ`, carrying named scalar layers.  A layer maps each cell to `Option ℚ`,
where `none` is the "invalid" sentinel (NaN in the original).  Layers are kept
in an association list in insertion order, mirroring the `layers_` vector plus
`data_` map of `grid_map::GridMap`:
  * `add` with an existing name resets that layer to all-invalid in place,
    otherwise it appends a fresh all-invalid layer (as `GridMap::add(layer)`,
    whose default fill value is NaN);
  * `erase` removes the first layer of the given name;
  * writing `at(layer, index) = v` updates one cell of the named layer and is
    a no-op when the layer is absent.
Cell positions are the cell centers on a square grid of pitch `res`; the
`CircleIterator` of grid_map yields exactly the in-map cells whose center has
squared distance at most `radius²` from the query position, which is the set
computed by `Geom.disc`.  Doubles are modelled as exact rationals; the `int`
arithmetic of the source (notably `nCells / nCellCritical_`) is modelled with
`Int.tdiv`, Lean's truncating (C-style) integer division.
-/

set_option maxRecDepth 10000

abbrev Cell : Type := Nat × Nat

abbrev Layers : Type := List (String × (Cell → Option ℚ))

/-- Lookup of a named layer's value at a cell; `none` when the layer is
absent or the cell holds the invalid sentinel. -/
def layerAt : Layers → String → Cell → Option ℚ
  | [], _, _ => none
  | (n, f) :: rest, name, c => if n = name then f c else layerAt rest name c

/-- Write one cell of the first layer of the given name
(`map.at(layer, index) = v`); no-op when the layer is absent. -/
def setAtL : Layers → String → Cell → ℚ → Layers
  | [], _, _, _ => []
  | (n, f) :: rest, name, c, v =>
      if n = name then (n, fun c2 => if c2 = c then some v else f c2) :: rest
      else (n, f) :: setAtL rest name c v

/-- `GridMap::add(layer)`: reset an existing layer of that name to
all-invalid, else append a fresh all-invalid layer. -/
def addL : Layers → String → Layers
  | [], name => [(name, fun _ => none)]
  | (n, f) :: rest, name =>
      if n = name then (n, fun _ => none) :: rest
      else (n, f) :: addL rest name

/-- `GridMap::erase(layer)`: remove the first layer of the given name. -/
def eraseL : Layers → String → Layers
  | [], _ => []
  | (n, f) :: rest, name => if n = name then rest else (n, f) :: eraseL rest name

def namesOf (ls : Layers) : List String := ls.map Prod.fst

/-- The geometry of the raster: its size and cell pitch (resolution). -/
structure Geom where
  rows : Nat
  cols : Nat
  res : ℚ
deriving DecidableEq

/-- All cell indices of the raster; the full-grid iteration of
`GridMapIterator` visits exactly these, each once. -/
def Geom.cells (gm : Geom) : List Cell :=
  (List.range gm.rows) ×ˢ (List.range gm.cols)

/-- Center position of a cell.  grid_map's position convention differs by a
constant offset and orientation, which leaves all center-to-center distances
(the only geometric quantity the filter uses) unchanged. -/
def Geom.pos (gm : Geom) (c : Cell) : ℚ × ℚ := (gm.res * c.1, gm.res * c.2)

def sqDist (p q : ℚ × ℚ) : ℚ := (p.1 - q.1) ^ 2 + (p.2 - q.2) ^ 2

/-- The cells visited by `CircleIterator(map, center, radius)`: in-map cells
whose center lies within `radius` of `center` (squared-norm comparison, as in
`CircleIterator::isInside`). -/
def Geom.disc (gm : Geom) (center : ℚ × ℚ) (r : ℚ) : List Cell :=
  gm.cells.filter (fun c => decide (sqDist (gm.pos c) center ≤ r * r))

structure Grid where
  geom : Geom
  layers : Layers

def Grid.atL (g : Grid) (name : String) (c : Cell) : Option ℚ :=
  layerAt g.layers name c

def Grid.setAt (g : Grid) (name : String) (c : Cell) (v : ℚ) : Grid :=
  ⟨g.geom, setAtL g.layers name c v⟩

def Grid.add (g : Grid) (name : String) : Grid := ⟨g.geom, addL g.layers name⟩

def Grid.erase (g : Grid) (name : String) : Grid := ⟨g.geom, eraseL g.layers name⟩

/-- The filter's configuration record: the five member fields of
`StepFilter`, set by the constructor and overwritten by `configure`. -/
structure Config where
  criticalValue : ℚ
  firstWindowRadius : ℚ
  secondWindowRadius : ℚ
  nCellCritical : ℤ
  type : String
deriving DecidableEq

/-- The member initializers of the `StepFilter` constructor:
`criticalValue_(0.3), firstWindowRadius_(0.08), secondWindowRadius_(0.08),
nCellCritical_(5), type_("traversability_step")`. -/
def initialState : Config := ⟨3/10, 2/25, 2/25, 5, "traversability_step"⟩

/-- The parameter source queried by `FilterBase::getParam`: each of the five
keys either yields a value or is absent. -/
structure ParamSource where
  critical_value : Option ℚ
  first_window_radius : Option ℚ
  second_window_radius : Option ℚ
  critical_cell_number : Option ℤ
  map_type : Option String
deriving DecidableEq

/-- `StepFilter::configure`, lines 38-96.  `getParam(key, field_)` writes the
looked-up value directly into the member field and reports failure when the
key is absent; the validity checks are then performed on the stored field:
`criticalValue_ < 0.0`, `firstWindowRadius_ < 0.0`, `secondWindowRadius_ <
0.0` and `nCellCritical_ <= 0` each abort with `false`.  `map_type` has no
validity check.  Returns the success flag together with the member state the
call leaves behind. -/
def configure (p : ParamSource) (s : Config) : Bool × Config :=
  match p.critical_value with
  | none => (false, s)
  | some cv =>
    let s1 : Config := { s with criticalValue := cv }
    if cv < 0 then (false, s1) else
    match p.first_window_radius with
    | none => (false, s1)
    | some r1 =>
      let s2 : Config := { s1 with firstWindowRadius := r1 }
      if r1 < 0 then (false, s2) else
      match p.second_window_radius with
      | none => (false, s2)
      | some r2 =>
        let s3 : Config := { s2 with secondWindowRadius := r2 }
        if r2 < 0 then (false, s3) else
        match p.critical_cell_number with
        | none => (false, s3)
        | some k =>
          let s4 : Config := { s3 with nCellCritical := k }
          if k ≤ 0 then (false, s4) else
          match p.map_type with
          | none => (false, s4)
          | some t => (true, { s4 with type := t })

/-- Modelled from the spec: the configuration contract as the specification
states it — all five parameters present, `criticalValue > 0`,
`firstWindowRadius > 0`, `secondWindowRadius > 0`, `nCellCritical > 0`, and
a non-empty output layer name.  Kept separate from `configure` (which is
translated from the code) for comparison. -/
def specConfigureOk (p : ParamSource) : Prop :=
  (∃ cv, p.critical_value = some cv ∧ 0 < cv) ∧
  (∃ r, p.first_window_radius = some r ∧ 0 < r) ∧
  (∃ r, p.second_window_radius = some r ∧ 0 < r) ∧
  (∃ k, p.critical_cell_number = some k ∧ 0 < k) ∧
  (∃ t, p.map_type = some t ∧ t ≠ "")

/-- Inner loop of the first pass (lines 121-133): running maximum of
`|height - elevation(c')|` over the first-window disc, skipping invalid
elevations, starting from `stepMax = 0.0`. -/
def maxStep (g : Grid) (r : ℚ) (c : Cell) (h : ℚ) : ℚ :=
  (g.geom.disc (g.geom.pos c) r).foldl
    (fun m c2 =>
      match g.atL "elevation" c2 with
      | none => m
      | some e => max m |h - e|) 0

/-- One iteration of the first pass (lines 110-134): skip the cell when its
elevation is invalid; otherwise compute the windowed maximum step and write
`step_height` only when it is strictly positive. -/
def pass1StepL (cfg : Config) (g : Grid) (c : Cell) : Layers :=
  match g.atL "elevation" c with
  | none => g.layers
  | some h =>
      if 0 < maxStep g cfg.firstWindowRadius c h
      then setAtL g.layers "step_height" c (maxStep g cfg.firstWindowRadius c h)
      else g.layers

def pass1Step (cfg : Config) (g : Grid) (c : Cell) : Grid :=
  ⟨g.geom, pass1StepL cfg g c⟩

/-- The first `GridMapIterator` loop of `update`. -/
def pass1 (cfg : Config) (g : Grid) : Grid :=
  g.geom.cells.foldl (pass1Step cfg) g

/-- One iteration of the second pass's `CircleIterator` loop (lines 147-159),
on the state `(nCells, stepMax, isValid)`: skip invalid `step_height`; set
`isValid`; when the value exceeds the running maximum, take it as the new
maximum and additionally increment `nCells` when it exceeds
`criticalValue_`. -/
def scanStep (cfg : Config) (g : Grid) (st : Nat × ℚ × Bool) (c2 : Cell) :
    Nat × ℚ × Bool :=
  match g.atL "step_height" c2 with
  | none => st
  | some s =>
      if st.2.1 < s then
        (if cfg.criticalValue < s then st.1 + 1 else st.1, s, true)
      else (st.1, st.2.1, true)

def scan2 (cfg : Config) (g : Grid) (cs : List Cell) : Nat × ℚ × Bool :=
  cs.foldl (scanStep cfg g) (0, 0, false)

/-- The `(nCells, stepMax, isValid)` triple the second pass computes at a
cell. -/
def scanAt (cfg : Config) (g : Grid) (c : Cell) : Nat × ℚ × Bool :=
  scan2 cfg g (g.geom.disc (g.geom.pos c) cfg.secondWindowRadius)

/-- The value written by the second pass (lines 162-168):
`step = std::min(stepMax, nCells / nCellCritical_ * stepMax)` with the C
truncating `int` division, then `1 - step / criticalValue_` when
`step < criticalValue_`, else `0`. -/
def costOf (cfg : Config) (n : Nat) (m : ℚ) : ℚ :=
  if min m (((Int.tdiv (n : ℤ) cfg.nCellCritical : ℤ) : ℚ) * m) < cfg.criticalValue
  then 1 - min m (((Int.tdiv (n : ℤ) cfg.nCellCritical : ℤ) : ℚ) * m) / cfg.criticalValue
  else 0

/-- One iteration of the second pass (lines 137-170): scan the second-window
disc and, when any valid `step_height` was seen, write the cost to the
output layer `type_`. -/
def pass2StepL (cfg : Config) (g : Grid) (c : Cell) : Layers :=
  if (scanAt cfg g c).2.2 = true
  then setAtL g.layers cfg.type c (costOf cfg (scanAt cfg g c).1 (scanAt cfg g c).2.1)
  else g.layers

def pass2Step (cfg : Config) (g : Grid) (c : Cell) : Grid :=
  ⟨g.geom, pass2StepL cfg g c⟩

/-- The second `GridMapIterator` loop of `update`. -/
def pass2 (cfg : Config) (g : Grid) : Grid :=
  g.geom.cells.foldl (pass2Step cfg) g

/-- `StepFilter::update` (lines 99-174): copy the input, `add(type_)`,
`add("step_height")`, run the two passes, then `erase("step_height")`.  The
function always returns `true` in the source; the resulting raster is the
observable output. -/
def update (cfg : Config) (g : Grid) : Grid :=
  Grid.erase
    (pass2 cfg (pass1 cfg (Grid.add (Grid.add g cfg.type) "step_height")))
    "step_height"

/-- The intermediate raster after both `add`s and the first pass: the state
in which the second pass reads `step_height`. -/
def innerGrid (cfg : Config) (g : Grid) : Grid :=
  pass1 cfg (Grid.add (Grid.add g cfg.type) "step_height")


/-- The value the first pass writes at a cell: `some stepMax` when the cell's
elevation is valid and the windowed maximum is positive, `none` (no write)
otherwise. -/
def pass1Out (cfg : Config) (g : Grid) (c : Cell) : Option ℚ :=
  match g.atL "elevation" c with
  | none => none
  | some h =>
      if 0 < maxStep g cfg.firstWindowRadius c h
      then some (maxStep g cfg.firstWindowRadius c h) else none

/-- The value the second pass writes at a cell: the cost when some valid
`step_height` was seen in the second window, `none` (no write) otherwise. -/
def pass2Out (cfg : Config) (g : Grid) (c : Cell) : Option ℚ :=
  if (scanAt cfg g c).2.2 = true
  then some (costOf cfg (scanAt cfg g c).1 (scanAt cfg g c).2.1) else none

/-- The absolute elevation differences `|h - elevation(c')|` over the valid
cells of the first window, in scan order. -/
def stepCandidates (g : Grid) (r : ℚ) (c : Cell) (h : ℚ) : List ℚ :=
  (g.geom.disc (g.geom.pos c) r).filterMap
    (fun c2 => (g.atL "elevation" c2).map (fun e => |h - e|))

/-! ### Concrete rasters and configurations for witnesses and
counterexamples -/

/-- 3×3 raster, elevation 0 everywhere except a spike of height 1 at the
center cell `(1,1)`; resolution 1. -/
def g3 : Grid :=
  ⟨⟨3, 3, 1⟩, [("elevation", fun c => some (if c = (1, 1) then 1 else 0))]⟩

/-- 1×3 raster: invalid elevation at `(0,0)`, elevation 0 at `(0,1)` and 1
at `(0,2)`; resolution 1. -/
def g13 : Grid :=
  ⟨⟨1, 3, 1⟩, [("elevation",
      fun c => if c = (0, 1) then some 0 else
        if c = (0, 2) then some 1 else none)]⟩

/-- 1×1 raster that already carries a `step_height` layer. -/
def gBad : Grid :=
  ⟨⟨1, 1, 1⟩, [("elevation", fun _ => some 0), ("step_height", fun _ => some 5)]⟩

/-- A valid configuration: `criticalValue = 0.3`, both radii 1,
`nCellCritical = 1`, output layer `"t"`. -/
def cfgA : Config := ⟨3/10, 1, 1, 1, "t"⟩

/-- As `cfgA` but with `nCellCritical = 2`. -/
def cfgB : Config := ⟨3/10, 1, 1, 2, "t"⟩

/-- The raster the first pass of `update cfgA g13` produces, with its fresh
all-invalid `step_height` layer. -/
def gP : Grid := Grid.add g13 "step_height"

/-- All five parameters present, `critical_value = 0`, both radii 0,
`critical_cell_number = 1`, empty `map_type`. -/
def pzero : ParamSource := ⟨some 0, some 0, some 0, some 1, some ""⟩

/-- `critical_value = 1` present, every later parameter missing. -/
def pone : ParamSource := ⟨some 1, none, none, none, none⟩

/-! ### Association-list lemmas for the layer store -/

theorem layerAt_setAtL_ne_name (ls : Layers) (nm name : String) (c c2 : Cell)
    (v : ℚ) (h : nm ≠ name) :
    layerAt (setAtL ls name c v) nm c2 = layerAt ls nm c2 := by
  induction ls with
  | nil => rfl
  | cons a rest ih =>
    obtain ⟨an, af⟩ := a
    simp only [setAtL]
    by_cases han : an = name
    · subst han
      simp only [if_pos rfl, layerAt, if_neg (Ne.symm h)]
    · rw [if_neg han]
      simp only [layerAt]
      by_cases h2 : an = nm
      · rw [if_pos h2, if_pos h2]
      · rw [if_neg h2, if_neg h2]
        exact ih

theorem layerAt_setAtL_ne_cell (ls : Layers) (name : String) (c c2 : Cell)
    (v : ℚ) (h : c2 ≠ c) :
    layerAt (setAtL ls name c v) name c2 = layerAt ls name c2 := by
  induction ls with
  | nil => rfl
  | cons a rest ih =>
    obtain ⟨an, af⟩ := a
    simp only [setAtL]
    by_cases han : an = name
    · subst han
      simp only [if_pos rfl, layerAt, if_pos rfl, if_neg h]
    · rw [if_neg han]
      simp only [layerAt, if_neg han]
      exact ih

theorem layerAt_setAtL_same (ls : Layers) (name : String) (c : Cell) (v : ℚ)
    (h : name ∈ namesOf ls) :
    layerAt (setAtL ls name c v) name c = some v := by
  induction ls with
  | nil => cases h
  | cons a rest ih =>
    obtain ⟨an, af⟩ := a
    simp only [setAtL]
    by_cases han : an = name
    · subst han
      simp [layerAt]
    · rw [if_neg han]
      simp only [layerAt, if_neg han]
      apply ih
      rcases List.mem_cons.mp h with h1 | h1
      · exact absurd h1.symm han
      · exact h1

theorem namesOf_setAtL (ls : Layers) (name : String) (c : Cell) (v : ℚ) :
    namesOf (setAtL ls name c v) = namesOf ls := by
  induction ls with
  | nil => rfl
  | cons a rest ih =>
    obtain ⟨an, af⟩ := a
    simp only [setAtL]
    by_cases han : an = name
    · rw [if_pos han]
      rfl
    · rw [if_neg han]
      simp only [namesOf, List.map_cons] at ih ⊢
      rw [ih]

theorem layerAt_addL_same (ls : Layers) (name : String) (c : Cell) :
    layerAt (addL ls name) name c = none := by
  induction ls with
  | nil => simp [addL, layerAt]
  | cons a rest ih =>
    obtain ⟨an, af⟩ := a
    simp only [addL]
    by_cases han : an = name
    · subst han
      simp [layerAt]
    · rw [if_neg han]
      simp only [layerAt, if_neg han]
      exact ih

theorem layerAt_addL_ne (ls : Layers) (nm name : String) (c : Cell)
    (h : nm ≠ name) :
    layerAt (addL ls name) nm c = layerAt ls nm c := by
  induction ls with
  | nil => simp [addL, layerAt, if_neg (Ne.symm h)]
  | cons a rest ih =>
    obtain ⟨an, af⟩ := a
    simp only [addL]
    by_cases han : an = name
    · subst han
      simp only [if_pos rfl, layerAt, if_neg (Ne.symm h)]
    · rw [if_neg han]
      simp only [layerAt]
      by_cases h2 : an = nm
      · rw [if_pos h2, if_pos h2]
      · rw [if_neg h2, if_neg h2]
        exact ih

theorem namesOf_addL_not_mem (ls : Layers) (name : String)
    (h : name ∉ namesOf ls) :
    namesOf (addL ls name) = namesOf ls ++ [name] := by
  induction ls with
  | nil => rfl
  | cons a rest ih =>
    obtain ⟨an, af⟩ := a
    simp only [namesOf, List.map_cons, List.mem_cons] at h
    push_neg at h
    simp only [addL, if_neg (Ne.symm h.1)]
    simp only [namesOf, List.map_cons, List.cons_append]
    simp only [namesOf] at ih
    rw [ih h.2]

theorem mem_namesOf_addL_self (ls : Layers) (name : String) :
    name ∈ namesOf (addL ls name) := by
  induction ls with
  | nil => simp [addL, namesOf]
  | cons a rest ih =>
    obtain ⟨an, af⟩ := a
    simp only [addL]
    by_cases han : an = name
    · subst han
      simp [namesOf]
    · rw [if_neg han]
      simp only [namesOf, List.map_cons, List.mem_cons]
      right
      exact ih

theorem mem_namesOf_addL_of_mem (ls : Layers) (nm name : String)
    (h : nm ∈ namesOf ls) :
    nm ∈ namesOf (addL ls name) := by
  induction ls with
  | nil => cases h
  | cons a rest ih =>
    obtain ⟨an, af⟩ := a
    simp only [addL]
    by_cases han : an = name
    · subst han
      simpa [namesOf] using h
    · rw [if_neg han]
      simp only [namesOf, List.map_cons, List.mem_cons] at h ⊢
      rcases h with h | h
      · exact Or.inl h
      · exact Or.inr (ih h)

theorem layerAt_eraseL_ne (ls : Layers) (nm name : String) (c : Cell)
    (h : nm ≠ name) :
    layerAt (eraseL ls name) nm c = layerAt ls nm c := by
  induction ls with
  | nil => rfl
  | cons a rest ih =>
    obtain ⟨an, af⟩ := a
    simp only [eraseL]
    by_cases han : an = name
    · subst han
      simp [layerAt, if_neg (Ne.symm h)]
    · rw [if_neg han]
      simp only [layerAt]
      by_cases h2 : an = nm
      · rw [if_pos h2, if_pos h2]
      · rw [if_neg h2, if_neg h2]
        exact ih

theorem namesOf_eraseL (ls : Layers) (name : String) :
    namesOf (eraseL ls name) = (namesOf ls).erase name := by
  induction ls with
  | nil => rfl
  | cons a rest ih =>
    obtain ⟨an, af⟩ := a
    simp only [eraseL]
    by_cases han : an = name
    · subst han
      simp [namesOf, List.erase_cons_head]
    · rw [if_neg han]
      simp only [namesOf, List.map_cons]
      rw [List.erase_cons_tail]
      · simp only [namesOf] at ih
        rw [ih]
      · simp [han]

/-! ### Generic lemmas about per-cell writing folds -/

theorem foldl_motive_pres {α : Type} (f : Grid → Cell → Grid) (motive : Grid → α)
    (hstep : ∀ g c, motive (f g c) = motive g) :
    ∀ (cs : List Cell) (g : Grid), motive (cs.foldl f g) = motive g := by
  intro cs
  induction cs with
  | nil => intro g; rfl
  | cons a rest ih =>
    intro g
    rw [List.foldl_cons, ih, hstep]

theorem foldl_write_not_mem (f : Grid → Cell → Grid) (L : String)
    (I : Grid → Prop)
    (hI : ∀ g c, I g → I (f g c))
    (h1 : ∀ g c c2, I g → c2 ≠ c → (f g c).atL L c2 = g.atL L c2) :
    ∀ (cs : List Cell) (g : Grid), I g → ∀ c, c ∉ cs →
      (cs.foldl f g).atL L c = g.atL L c := by
  intro cs
  induction cs with
  | nil => intro g _ c _; rfl
  | cons a rest ih =>
    intro g hIg c hc
    rw [List.foldl_cons]
    have hmem := List.mem_cons.not.mp hc
    push_neg at hmem
    rw [ih (f g a) (hI g a hIg) c hmem.2, h1 g a c hIg hmem.1]

theorem foldl_write_at (f : Grid → Cell → Grid) (L : String)
    (out : Grid → Cell → Option ℚ) (I : Grid → Prop)
    (hI : ∀ g c, I g → I (f g c))
    (h1 : ∀ g c c2, I g → c2 ≠ c → (f g c).atL L c2 = g.atL L c2)
    (h2 : ∀ g c, I g → (f g c).atL L c = Option.elim (out g c) (g.atL L c) some)
    (h3 : ∀ g c c2, I g → out (f g c2) c = out g c) :
    ∀ (cs : List Cell) (g : Grid), I g → cs.Nodup → ∀ c, c ∈ cs →
      (cs.foldl f g).atL L c = Option.elim (out g c) (g.atL L c) some := by
  intro cs
  induction cs with
  | nil => intro g _ _ c hc; cases hc
  | cons a rest ih =>
    intro g hIg hnd c hc
    rw [List.foldl_cons]
    rcases List.mem_cons.mp hc with hca | hcr
    · subst hca
      have hnotin : c ∉ rest := (List.nodup_cons.mp hnd).1
      rw [foldl_write_not_mem f L I hI h1 rest (f g c) (hI g c hIg) c hnotin]
      exact h2 g c hIg
    · have hrest := (List.nodup_cons.mp hnd).2
      have hne : c ≠ a := by
        intro hh
        subst hh
        exact (List.nodup_cons.mp hnd).1 hcr
      rw [ih (f g a) (hI g a hIg) hrest c hcr, h3 g c a hIg, h1 g a c hIg hne]

/-! ### Cells of the raster -/

theorem cells_nodup (gm : Geom) : gm.cells.Nodup :=
  (List.nodup_range gm.rows).product (List.nodup_range gm.cols)

theorem mem_cells (gm : Geom) (c : Cell) :
    c ∈ gm.cells ↔ c.1 < gm.rows ∧ c.2 < gm.cols := by
  obtain ⟨i, j⟩ := c
  simp [Geom.cells, List.mem_product]

theorem self_mem_disc (gm : Geom) (c : Cell) (r : ℚ) (hc : c ∈ gm.cells) :
    c ∈ gm.disc (gm.pos c) r := by
  apply List.mem_filter.mpr
  refine ⟨hc, ?_⟩
  have : sqDist (gm.pos c) (gm.pos c) = 0 := by
    simp [sqDist]
  simp [this, mul_self_nonneg r]

/-! ### First pass: invariance and pointwise characterization -/

theorem pass1Step_geom (cfg : Config) (g : Grid) (c : Cell) :
    (pass1Step cfg g c).geom = g.geom := rfl

theorem pass1Step_atL_ne (cfg : Config) (g : Grid) (c : Cell) (nm : String)
    (c2 : Cell) (h : nm ≠ "step_height") :
    (pass1Step cfg g c).atL nm c2 = g.atL nm c2 := by
  show layerAt (pass1StepL cfg g c) nm c2 = layerAt g.layers nm c2
  unfold pass1StepL
  cases g.atL "elevation" c with
  | none => rfl
  | some hv =>
    dsimp only
    by_cases h0 : 0 < maxStep g cfg.firstWindowRadius c hv
    · rw [if_pos h0]
      exact layerAt_setAtL_ne_name _ _ _ _ _ _ h
    · rw [if_neg h0]

theorem pass1Step_atL_sh_ne_cell (cfg : Config) (g : Grid) (c c2 : Cell)
    (h : c2 ≠ c) :
    (pass1Step cfg g c).atL "step_height" c2 = g.atL "step_height" c2 := by
  show layerAt (pass1StepL cfg g c) "step_height" c2 = _
  unfold pass1StepL
  cases g.atL "elevation" c with
  | none => rfl
  | some hv =>
    dsimp only
    by_cases h0 : 0 < maxStep g cfg.firstWindowRadius c hv
    · rw [if_pos h0]
      exact layerAt_setAtL_ne_cell _ _ _ _ _ h
    · rw [if_neg h0]
      rfl

theorem pass1Step_names (cfg : Config) (g : Grid) (c : Cell) :
    namesOf (pass1Step cfg g c).layers = namesOf g.layers := by
  show namesOf (pass1StepL cfg g c) = _
  unfold pass1StepL
  cases g.atL "elevation" c with
  | none => rfl
  | some hv =>
    dsimp only
    by_cases h0 : 0 < maxStep g cfg.firstWindowRadius c hv
    · rw [if_pos h0]
      exact namesOf_setAtL _ _ _ _
    · rw [if_neg h0]

theorem maxStep_congr (g g2 : Grid) (r : ℚ) (c : Cell) (h : ℚ)
    (hg : g2.geom = g.geom)
    (he : ∀ c2, g2.atL "elevation" c2 = g.atL "elevation" c2) :
    maxStep g2 r c h = maxStep g r c h := by
  unfold maxStep
  rw [hg]
  congr 1
  funext m c2
  rw [he c2]

theorem pass1Step_at_self (cfg : Config) (g : Grid) (c : Cell)
    (hmem : "step_height" ∈ namesOf g.layers) :
    (pass1Step cfg g c).atL "step_height" c =
      Option.elim (pass1Out cfg g c) (g.atL "step_height" c) some := by
  show layerAt (pass1StepL cfg g c) "step_height" c = _
  unfold pass1StepL pass1Out
  cases g.atL "elevation" c with
  | none => rfl
  | some hv =>
    dsimp only
    by_cases h0 : 0 < maxStep g cfg.firstWindowRadius c hv
    · rw [if_pos h0, if_pos h0]
      exact layerAt_setAtL_same _ _ _ _ hmem
    · rw [if_neg h0, if_neg h0]
      rfl

theorem pass1Out_congr (cfg : Config) (g : Grid) (c c2 : Cell) :
    pass1Out cfg (pass1Step cfg g c2) c = pass1Out cfg g c := by
  unfold pass1Out
  have he : ∀ c3, (pass1Step cfg g c2).atL "elevation" c3
      = g.atL "elevation" c3 := by
    intro c3
    exact pass1Step_atL_ne cfg g c2 "elevation" c3 (by decide)
  rw [he c]
  cases g.atL "elevation" c with
  | none => rfl
  | some hv =>
    dsimp only
    rw [maxStep_congr g (pass1Step cfg g c2) cfg.firstWindowRadius c hv
      (pass1Step_geom cfg g c2) he]

theorem pass1_at (cfg : Config) (g : Grid) (c : Cell)
    (hmem : "step_height" ∈ namesOf g.layers) (hc : c ∈ g.geom.cells) :
    (pass1 cfg g).atL "step_height" c =
      Option.elim (pass1Out cfg g c) (g.atL "step_height" c) some := by
  refine foldl_write_at (pass1Step cfg) "step_height" (pass1Out cfg)
    (fun g2 => "step_height" ∈ namesOf g2.layers) ?_ ?_ ?_ ?_
    g.geom.cells g hmem (cells_nodup g.geom) c hc
  · intro g2 c2 hI
    rw [pass1Step_names]
    exact hI
  · intro g2 c2 c3 _ hne
    exact pass1Step_atL_sh_ne_cell cfg g2 c2 c3 hne
  · intro g2 c2 hI
    exact pass1Step_at_self cfg g2 c2 hI
  · intro g2 c2 c3 _
    exact pass1Out_congr cfg g2 c2 c3

theorem pass1_geom (cfg : Config) (g : Grid) : (pass1 cfg g).geom = g.geom :=
  foldl_motive_pres (pass1Step cfg) Grid.geom (fun _ _ => rfl) g.geom.cells g

theorem pass1_atL_ne (cfg : Config) (g : Grid) (nm : String) (c : Cell)
    (h : nm ≠ "step_height") :
    (pass1 cfg g).atL nm c = g.atL nm c :=
  foldl_motive_pres (pass1Step cfg) (fun g2 => g2.atL nm c)
    (fun g2 c2 => pass1Step_atL_ne cfg g2 c2 nm c h) g.geom.cells g

theorem pass1_names (cfg : Config) (g : Grid) :
    namesOf (pass1 cfg g).layers = namesOf g.layers :=
  foldl_motive_pres (pass1Step cfg) (fun g2 => namesOf g2.layers)
    (fun g2 c2 => pass1Step_names cfg g2 c2) g.geom.cells g

/-! ### Second pass: invariance and pointwise characterization -/

theorem pass2Step_geom (cfg : Config) (g : Grid) (c : Cell) :
    (pass2Step cfg g c).geom = g.geom := rfl

theorem pass2Step_atL_ne (cfg : Config) (g : Grid) (c : Cell) (nm : String)
    (c2 : Cell) (h : nm ≠ cfg.type) :
    (pass2Step cfg g c).atL nm c2 = g.atL nm c2 := by
  show layerAt (pass2StepL cfg g c) nm c2 = layerAt g.layers nm c2
  unfold pass2StepL
  by_cases h0 : (scanAt cfg g c).2.2 = true
  · rw [if_pos h0]
    exact layerAt_setAtL_ne_name _ _ _ _ _ _ h
  · rw [if_neg h0]

theorem pass2Step_atL_ne_cell (cfg : Config) (g : Grid) (c c2 : Cell)
    (h : c2 ≠ c) :
    (pass2Step cfg g c).atL cfg.type c2 = g.atL cfg.type c2 := by
  show layerAt (pass2StepL cfg g c) cfg.type c2 = _
  unfold pass2StepL
  by_cases h0 : (scanAt cfg g c).2.2 = true
  · rw [if_pos h0]
    exact layerAt_setAtL_ne_cell _ _ _ _ _ h
  · rw [if_neg h0]
    rfl

theorem pass2Step_names (cfg : Config) (g : Grid) (c : Cell) :
    namesOf (pass2Step cfg g c).layers = namesOf g.layers := by
  show namesOf (pass2StepL cfg g c) = _
  unfold pass2StepL
  by_cases h0 : (scanAt cfg g c).2.2 = true
  · rw [if_pos h0]
    exact namesOf_setAtL _ _ _ _
  · rw [if_neg h0]

theorem scanAt_congr (cfg : Config) (g g2 : Grid) (c : Cell)
    (hg : g2.geom = g.geom)
    (hs : ∀ c2, g2.atL "step_height" c2 = g.atL "step_height" c2) :
    scanAt cfg g2 c = scanAt cfg g c := by
  unfold scanAt scan2
  rw [hg]
  congr 1
  funext st c2
  unfold scanStep
  rw [hs c2]

theorem pass2Step_at_self (cfg : Config) (g : Grid) (c : Cell)
    (hmem : cfg.type ∈ namesOf g.layers) :
    (pass2Step cfg g c).atL cfg.type c =
      Option.elim (pass2Out cfg g c) (g.atL cfg.type c) some := by
  show layerAt (pass2StepL cfg g c) cfg.type c = _
  unfold pass2StepL pass2Out
  by_cases h0 : (scanAt cfg g c).2.2 = true
  · rw [if_pos h0, if_pos h0]
    exact layerAt_setAtL_same _ _ _ _ hmem
  · rw [if_neg h0, if_neg h0]
    rfl

theorem pass2Out_congr (cfg : Config) (g : Grid) (c c2 : Cell)
    (hty : cfg.type ≠ "step_height") :
    pass2Out cfg (pass2Step cfg g c2) c = pass2Out cfg g c := by
  unfold pass2Out
  rw [scanAt_congr cfg g (pass2Step cfg g c2) c (pass2Step_geom cfg g c2)
    (fun c3 => pass2Step_atL_ne cfg g c2 "step_height" c3 (Ne.symm hty))]

theorem pass2_at (cfg : Config) (g : Grid) (c : Cell)
    (hty : cfg.type ≠ "step_height")
    (hmem : cfg.type ∈ namesOf g.layers) (hc : c ∈ g.geom.cells) :
    (pass2 cfg g).atL cfg.type c =
      Option.elim (pass2Out cfg g c) (g.atL cfg.type c) some := by
  refine foldl_write_at (pass2Step cfg) cfg.type (pass2Out cfg)
    (fun g2 => cfg.type ∈ namesOf g2.layers) ?_ ?_ ?_ ?_
    g.geom.cells g hmem (cells_nodup g.geom) c hc
  · intro g2 c2 hI
    rw [pass2Step_names]
    exact hI
  · intro g2 c2 c3 _ hne
    exact pass2Step_atL_ne_cell cfg g2 c2 c3 hne
  · intro g2 c2 hI
    exact pass2Step_at_self cfg g2 c2 hI
  · intro g2 c2 c3 _
    exact pass2Out_congr cfg g2 c2 c3 hty

theorem pass2_geom (cfg : Config) (g : Grid) : (pass2 cfg g).geom = g.geom :=
  foldl_motive_pres (pass2Step cfg) Grid.geom (fun _ _ => rfl) g.geom.cells g

theorem pass2_atL_ne (cfg : Config) (g : Grid) (nm : String) (c : Cell)
    (h : nm ≠ cfg.type) :
    (pass2 cfg g).atL nm c = g.atL nm c :=
  foldl_motive_pres (pass2Step cfg) (fun g2 => g2.atL nm c)
    (fun g2 c2 => pass2Step_atL_ne cfg g2 c2 nm c h) g.geom.cells g

theorem pass2_names (cfg : Config) (g : Grid) :
    namesOf (pass2 cfg g).layers = namesOf g.layers :=
  foldl_motive_pres (pass2Step cfg) (fun g2 => namesOf g2.layers)
    (fun g2 c2 => pass2Step_names cfg g2 c2) g.geom.cells g

/-! ### The composed update -/

theorem innerGrid_geom (cfg : Config) (g : Grid) :
    (innerGrid cfg g).geom = g.geom := by
  unfold innerGrid
  rw [pass1_geom]
  rfl

theorem innerGrid_type_mem (cfg : Config) (g : Grid) :
    cfg.type ∈ namesOf (innerGrid cfg g).layers := by
  unfold innerGrid
  rw [pass1_names]
  show cfg.type ∈ namesOf (addL (addL g.layers cfg.type) "step_height")
  exact mem_namesOf_addL_of_mem _ _ _ (mem_namesOf_addL_self _ _)

theorem innerGrid_sh_mem (cfg : Config) (g : Grid) :
    "step_height" ∈ namesOf (innerGrid cfg g).layers := by
  unfold innerGrid
  rw [pass1_names]
  exact mem_namesOf_addL_self _ _

theorem innerGrid_type_none (cfg : Config) (g : Grid) (c : Cell)
    (hty : cfg.type ≠ "step_height") :
    (innerGrid cfg g).atL cfg.type c = none := by
  unfold innerGrid
  rw [pass1_atL_ne cfg _ cfg.type c hty]
  show layerAt (addL (addL g.layers cfg.type) "step_height") cfg.type c = none
  rw [layerAt_addL_ne _ _ _ _ hty]
  exact layerAt_addL_same _ _ _

/-- What `update` leaves in the output layer at an in-map cell: the cost when
the second window saw a valid `step_height`, invalid otherwise. -/
theorem update_at (cfg : Config) (g : Grid) (c : Cell)
    (hty : cfg.type ≠ "step_height") (hc : c ∈ g.geom.cells) :
    (update cfg g).atL cfg.type c =
      (if (scanAt cfg (innerGrid cfg g) c).2.2 = true
       then some (costOf cfg (scanAt cfg (innerGrid cfg g) c).1
         (scanAt cfg (innerGrid cfg g) c).2.1)
       else none) := by
  have h1 : (update cfg g).atL cfg.type c
      = (pass2 cfg (innerGrid cfg g)).atL cfg.type c := by
    show layerAt (eraseL (pass2 cfg (innerGrid cfg g)).layers "step_height")
        cfg.type c = _
    exact layerAt_eraseL_ne _ _ _ _ hty
  have hc2 : c ∈ (innerGrid cfg g).geom.cells := by
    rw [innerGrid_geom]
    exact hc
  rw [h1, pass2_at cfg (innerGrid cfg g) c hty (innerGrid_type_mem cfg g) hc2,
    innerGrid_type_none cfg g c hty]
  unfold pass2Out
  by_cases h0 : (scanAt cfg (innerGrid cfg g) c).2.2 = true
  · rw [if_pos h0]
    rfl
  · rw [if_neg h0]
    rfl

/-! ### Properties of the window scan of the second pass -/

theorem scan2_m_nonneg (cfg : Config) (g : Grid) :
    ∀ (cs : List Cell) (st : Nat × ℚ × Bool), 0 ≤ st.2.1 →
      0 ≤ (cs.foldl (scanStep cfg g) st).2.1 := by
  intro cs
  induction cs with
  | nil => intro st h; exact h
  | cons a rest ih =>
    intro st h
    rw [List.foldl_cons]
    apply ih
    unfold scanStep
    cases g.atL "step_height" a with
    | none => exact h
    | some s =>
      dsimp only
      by_cases hs : st.2.1 < s
      · rw [if_pos hs]
        exact le_of_lt (lt_of_le_of_lt h hs)
      · rw [if_neg hs]
        exact h

theorem scan2_valid_iff (cfg : Config) (g : Grid) :
    ∀ (cs : List Cell) (st : Nat × ℚ × Bool),
      ((cs.foldl (scanStep cfg g) st).2.2 = true ↔
        st.2.2 = true ∨ ∃ c2 ∈ cs, g.atL "step_height" c2 ≠ none) := by
  intro cs
  induction cs with
  | nil => intro st; simp
  | cons a rest ih =>
    intro st
    rw [List.foldl_cons]
    rw [ih (scanStep cfg g st a)]
    constructor
    · rintro (hval | hex)
      · unfold scanStep at hval
        cases ha : g.atL "step_height" a with
        | none =>
          rw [ha] at hval
          exact Or.inl hval
        | some s =>
          right
          exact ⟨a, List.mem_cons_self a rest, by rw [ha]; exact Option.some_ne_none s⟩
      · rcases hex with ⟨c2, hc2, hval⟩
        exact Or.inr ⟨c2, List.mem_cons_of_mem a hc2, hval⟩
    · rintro (hval | ⟨c2, hc2, hval⟩)
      · left
        unfold scanStep
        cases ha : g.atL "step_height" a with
        | none => exact hval
        | some s =>
          dsimp only
          by_cases hs : st.2.1 < s
          · rw [if_pos hs]
          · rw [if_neg hs]
      · rcases List.mem_cons.mp hc2 with h2 | h2
        · subst h2
          left
          unfold scanStep
          cases ha : g.atL "step_height" c2 with
          | none => exact absurd ha hval
          | some s =>
            dsimp only
            by_cases hs : st.2.1 < s
            · rw [if_pos hs]
            · rw [if_neg hs]
        · exact Or.inr ⟨c2, h2, hval⟩

theorem scan2_cv_le (cfg : Config) (cv2 : ℚ) (hle : cfg.criticalValue ≤ cv2)
    (g : Grid) :
    ∀ (cs : List Cell) (st st2 : Nat × ℚ × Bool),
      st.2 = st2.2 → st2.1 ≤ st.1 →
      ((cs.foldl (scanStep { cfg with criticalValue := cv2 } g) st2).2
          = (cs.foldl (scanStep cfg g) st).2)
      ∧ (cs.foldl (scanStep { cfg with criticalValue := cv2 } g) st2).1
          ≤ (cs.foldl (scanStep cfg g) st).1 := by
  intro cs
  induction cs with
  | nil => intro st st2 h1 h2; exact ⟨h1.symm, h2⟩
  | cons a rest ih =>
    intro st st2 h1 h2
    rw [List.foldl_cons, List.foldl_cons]
    apply ih
    · unfold scanStep
      cases g.atL "step_height" a with
      | none => exact h1
      | some s =>
        dsimp only
        rw [h1]
        by_cases hs : st2.2.1 < s
        · rw [if_pos hs, if_pos hs]
        · rw [if_neg hs, if_neg hs]
    · unfold scanStep
      cases g.atL "step_height" a with
      | none => exact h2
      | some s =>
        dsimp only
        rw [h1]
        by_cases hs : st2.2.1 < s
        · rw [if_pos hs, if_pos hs]
          dsimp only
          by_cases hcv : cv2 < s
          · rw [if_pos hcv, if_pos (lt_of_le_of_lt hle hcv)]
            exact Nat.succ_le_succ h2
          · rw [if_neg hcv]
            by_cases hcv1 : cfg.criticalValue < s
            · rw [if_pos hcv1]
              exact le_trans h2 (Nat.le_succ _)
            · rw [if_neg hcv1]
              exact h2
        · rw [if_neg hs, if_neg hs]
          exact h2

/-! ### Arithmetic of the cost formula -/

theorem tdiv_cast_nat (n : Nat) (k : ℤ) (hk : 0 < k) :
    Int.tdiv (n : ℤ) k = ((n / k.toNat : Nat) : ℤ) := by
  obtain ⟨k0, rfl⟩ := Int.eq_ofNat_of_zero_le (le_of_lt hk)
  rw [Int.toNat_ofNat]
  exact (Int.ofNat_tdiv n k0).symm

theorem tdiv_nonneg_nat (n : Nat) (k : ℤ) (hk : 0 < k) :
    (0 : ℤ) ≤ Int.tdiv (n : ℤ) k := by
  rw [tdiv_cast_nat n k hk]
  exact Int.ofNat_nonneg _

theorem tdiv_eq_zero_of_lt (n : Nat) (k : ℤ) (hk : 0 < k) (h : (n : ℤ) < k) :
    Int.tdiv (n : ℤ) k = 0 := by
  rw [tdiv_cast_nat n k hk]
  have hn : n < k.toNat := by
    omega
  rw [Nat.div_eq_of_lt hn]
  rfl

theorem tdiv_le_tdiv (n2 n : Nat) (k : ℤ) (hk : 0 < k) (h : n2 ≤ n) :
    Int.tdiv (n2 : ℤ) k ≤ Int.tdiv (n : ℤ) k := by
  rw [tdiv_cast_nat n2 k hk, tdiv_cast_nat n k hk]
  exact Int.ofNat_le.mpr (Nat.div_le_div_right h)

theorem costOf_eq_one (cfg : Config) (n : Nat) (m : ℚ)
    (hcv : 0 < cfg.criticalValue) (hk : 0 < cfg.nCellCritical)
    (hm : 0 ≤ m) (hn : (n : ℤ) < cfg.nCellCritical) :
    costOf cfg n m = 1 := by
  unfold costOf
  rw [tdiv_eq_zero_of_lt n cfg.nCellCritical hk hn]
  simp only [Int.cast_zero, zero_mul, min_eq_right hm]
  rw [if_pos hcv]
  simp

theorem costOf_bounds (cfg : Config) (n : Nat) (m : ℚ)
    (hcv : 0 < cfg.criticalValue) (hk : 0 < cfg.nCellCritical) (hm : 0 ≤ m) :
    0 ≤ costOf cfg n m ∧ costOf cfg n m ≤ 1 := by
  unfold costOf
  have hr : (0 : ℚ) ≤ ((Int.tdiv (n : ℤ) cfg.nCellCritical : ℤ) : ℚ) := by
    exact_mod_cast tdiv_nonneg_nat n cfg.nCellCritical hk
  have hstep : 0 ≤ min m (((Int.tdiv (n : ℤ) cfg.nCellCritical : ℤ) : ℚ) * m) :=
    le_min hm (mul_nonneg hr hm)
  by_cases h0 :
      min m (((Int.tdiv (n : ℤ) cfg.nCellCritical : ℤ) : ℚ) * m) < cfg.criticalValue
  · rw [if_pos h0]
    constructor
    · have : min m (((Int.tdiv (n : ℤ) cfg.nCellCritical : ℤ) : ℚ) * m)
          / cfg.criticalValue < 1 := (div_lt_one hcv).mpr h0
      linarith
    · have : 0 ≤ min m (((Int.tdiv (n : ℤ) cfg.nCellCritical : ℤ) : ℚ) * m)
          / cfg.criticalValue := div_nonneg hstep (le_of_lt hcv)
      linarith
  · rw [if_neg h0]
    norm_num

theorem costOf_cv_mono (cfg : Config) (cv2 : ℚ) (n n2 : Nat) (m : ℚ)
    (hcv : 0 < cfg.criticalValue) (hle : cfg.criticalValue ≤ cv2)
    (hk : 0 < cfg.nCellCritical) (hm : 0 ≤ m) (hn : n2 ≤ n) :
    costOf cfg n m ≤ costOf { cfg with criticalValue := cv2 } n2 m := by
  have hcv2 : (0 : ℚ) < cv2 := lt_of_lt_of_le hcv hle
  unfold costOf
  dsimp only
  set r : ℚ := ((Int.tdiv (n : ℤ) cfg.nCellCritical : ℤ) : ℚ) with hrdef
  set r2 : ℚ := ((Int.tdiv (n2 : ℤ) cfg.nCellCritical : ℤ) : ℚ) with hr2def
  have hr0 : (0 : ℚ) ≤ r2 := by
    rw [hr2def]
    exact_mod_cast tdiv_nonneg_nat n2 cfg.nCellCritical hk
  have hrr : r2 ≤ r := by
    rw [hrdef, hr2def]
    exact_mod_cast tdiv_le_tdiv n2 n cfg.nCellCritical hk hn
  set s1 : ℚ := min m (r * m) with hs1
  set s2 : ℚ := min m (r2 * m) with hs2
  have hs20 : 0 ≤ s2 := le_min hm (mul_nonneg hr0 hm)
  have hs10 : 0 ≤ s1 := le_trans hs20 (min_le_min (le_refl m)
    (mul_le_mul_of_nonneg_right hrr hm))
  have hss : s2 ≤ s1 := min_le_min (le_refl m)
    (mul_le_mul_of_nonneg_right hrr hm)
  by_cases h2 : s2 < cv2
  · rw [if_pos h2]
    by_cases h1 : s1 < cfg.criticalValue
    · rw [if_pos h1]
      have hd : s2 / cv2 ≤ s1 / cfg.criticalValue := by
        calc s2 / cv2 ≤ s1 / cv2 := (div_le_div_iff_of_pos_right hcv2).mpr hss
          _ ≤ s1 / cfg.criticalValue := div_le_div_of_nonneg_left hs10 hcv hle
      linarith
    · rw [if_neg h1]
      have : s2 / cv2 < 1 := (div_lt_one hcv2).mpr h2
      linarith
  · rw [if_neg h2]
    have h1 : ¬ s1 < cfg.criticalValue := by
      push_neg at h2 ⊢
      exact le_trans hle (le_trans h2 hss)
    rw [if_neg h1]

/-! ### The windowed maximum of the first pass as a list maximum -/

theorem maxStep_fusion (g : Grid) (h : ℚ) :
    ∀ (l : List Cell) (a : ℚ),
      l.foldl (fun m c2 =>
        match g.atL "elevation" c2 with
        | none => m
        | some e => max m |h - e|) a
      = (l.filterMap
          (fun c2 => (g.atL "elevation" c2).map (fun e => |h - e|))).foldl max a := by
  intro l
  induction l with
  | nil => intro a; rfl
  | cons b t ih =>
    intro a
    rw [List.foldl_cons, List.filterMap_cons]
    cases g.atL "elevation" b with
    | none => exact ih a
    | some e =>
      dsimp only [Option.map]
      rw [List.foldl_cons]
      exact ih (max a |h - e|)

theorem maxStep_eq_foldl (g : Grid) (r : ℚ) (c : Cell) (h : ℚ) :
    maxStep g r c h = (stepCandidates g r c h).foldl max 0 := by
  unfold maxStep stepCandidates
  exact maxStep_fusion g h (g.geom.disc (g.geom.pos c) r) 0

theorem foldl_max_init (l : List ℚ) : ∀ a : ℚ, a ≤ l.foldl max a := by
  induction l with
  | nil => intro a; exact le_refl a
  | cons b t ih =>
    intro a
    rw [List.foldl_cons]
    exact le_trans (le_max_left a b) (ih (max a b))

theorem foldl_max_le_of_mem (l : List ℚ) :
    ∀ (a s : ℚ), s ∈ l → s ≤ l.foldl max a := by
  induction l with
  | nil => intro a s hs; cases hs
  | cons b t ih =>
    intro a s hs
    rw [List.foldl_cons]
    rcases List.mem_cons.mp hs with h1 | h1
    · subst h1
      exact le_trans (le_max_right a s) (foldl_max_init t (max a s))
    · exact ih (max a b) s h1

theorem foldl_max_mem (l : List ℚ) :
    ∀ a : ℚ, l.foldl max a = a ∨ l.foldl max a ∈ l := by
  induction l with
  | nil => intro a; exact Or.inl rfl
  | cons b t ih =>
    intro a
    rw [List.foldl_cons]
    rcases ih (max a b) with h1 | h1
    · rcases max_choice a b with h2 | h2
      · exact Or.inl (h1.trans h2)
      · exact Or.inr (List.mem_cons.mpr (Or.inl (h1.trans h2)))
    · exact Or.inr (List.mem_cons.mpr (Or.inr h1))

theorem zero_mem_stepCandidates (g : Grid) (r : ℚ) (c : Cell) (h : ℚ)
    (hc : c ∈ g.geom.cells) (he : g.atL "elevation" c = some h) :
    (0 : ℚ) ∈ stepCandidates g r c h := by
  unfold stepCandidates
  apply List.mem_filterMap.mpr
  refine ⟨c, self_mem_disc g.geom c r hc, ?_⟩
  rw [he]
  simp

/-! ### Claim theorems -/

/-- C2: in the step-height pass, a cell with invalid elevation is skipped
(its `step_height` stays unset), and a cell with valid elevation gets
`step_height = stepMax` exactly when the windowed maximum `stepMax` of
`|height - elevation(c')|` over the valid cells of the first-window disc
(which contains the cell itself, whose contribution is `0`) is strictly
positive; otherwise `step_height` stays unset.  `maxStep` is that maximum:
it bounds every candidate and is attained (or the candidate list only
reaches `0`, which the cell itself contributes). -/
theorem claim_C2 (cfg : Config) (g : Grid) (c : Cell)
    (hmem : "step_height" ∈ namesOf g.layers)
    (hc : c ∈ g.geom.cells)
    (h0 : g.atL "step_height" c = none) :
    (g.atL "elevation" c = none → (pass1 cfg g).atL "step_height" c = none)
    ∧ ∀ hgt, g.atL "elevation" c = some hgt →
        (0 < maxStep g cfg.firstWindowRadius c hgt →
          (pass1 cfg g).atL "step_height" c
            = some (maxStep g cfg.firstWindowRadius c hgt))
        ∧ (¬ 0 < maxStep g cfg.firstWindowRadius c hgt →
          (pass1 cfg g).atL "step_height" c = none)
        ∧ (∀ s ∈ stepCandidates g cfg.firstWindowRadius c hgt,
            s ≤ maxStep g cfg.firstWindowRadius c hgt)
        ∧ maxStep g cfg.firstWindowRadius c hgt
            ∈ stepCandidates g cfg.firstWindowRadius c hgt
        ∧ (0 : ℚ) ∈ stepCandidates g cfg.firstWindowRadius c hgt := by
  have hp := pass1_at cfg g c hmem hc
  rw [h0] at hp
  constructor
  · intro he
    rw [hp]
    unfold pass1Out
    rw [he]
    rfl
  · intro hgt he
    unfold pass1Out at hp
    rw [he] at hp
    dsimp only at hp
    refine ⟨?_, ?_, ?_, ?_, ?_⟩
    · intro hpos
      rw [hp, if_pos hpos]
      rfl
    · intro hneg
      rw [hp, if_neg hneg]
      rfl
    · intro s hs
      rw [maxStep_eq_foldl]
      exact foldl_max_le_of_mem _ 0 s hs
    · rw [maxStep_eq_foldl]
      rcases foldl_max_mem (stepCandidates g cfg.firstWindowRadius c hgt) 0
        with h1 | h1
      · rw [h1]
        exact zero_mem_stepCandidates g _ c hgt hc he
      · exact h1
    · exact zero_mem_stepCandidates g _ c hgt hc he

/-- C3: in the second pass's window scan, one scan step increments `nCells`
by exactly one precisely when the scanned cell holds a valid `step_height`
that strictly exceeds the running maximum and also exceeds
`criticalValue`; otherwise the counter is unchanged.  In particular a
critical value that does not raise the running maximum does not count. -/
theorem claim_C3 (cfg : Config) (g : Grid) (st : Nat × ℚ × Bool) (c2 : Cell) :
    ((scanStep cfg g st c2).1 = st.1 + 1 ∨ (scanStep cfg g st c2).1 = st.1)
    ∧ ((scanStep cfg g st c2).1 = st.1 + 1 ↔
        ∃ s, g.atL "step_height" c2 = some s ∧ st.2.1 < s
          ∧ cfg.criticalValue < s) := by
  unfold scanStep
  cases ha : g.atL "step_height" c2 with
  | none =>
    dsimp only
    constructor
    · exact Or.inr rfl
    · simp
  | some s =>
    dsimp only
    by_cases hs : st.2.1 < s
    · rw [if_pos hs]
      by_cases hcv : cfg.criticalValue < s
      · rw [if_pos hcv]
        constructor
        · exact Or.inl rfl
        · simp [hs, hcv]
      · rw [if_neg hcv]
        constructor
        · exact Or.inr rfl
        · simp [hcv]
    · rw [if_neg hs]
      constructor
      · exact Or.inr rfl
      · simp [hs]

/-- C1: at every cell whose second window saw a valid `step_height`, the
output is `1 - step/criticalValue` if `step < criticalValue` and `0`
otherwise, with `step = min(stepMax, (nCells / nCellCritical) * stepMax)`
computed with truncating integer division; consequently, whenever
`nCells < nCellCritical` (and `criticalValue > 0`), the quotient truncates
to `0`, `step = 0`, and the written output is `1`, regardless of
`stepMax`. -/
theorem claim_C1 (cfg : Config) (g : Grid) (c : Cell)
    (hty : cfg.type ≠ "step_height") (hc : c ∈ g.geom.cells)
    (hcv : 0 < cfg.criticalValue) (hk : 0 < cfg.nCellCritical)
    (hv : (scanAt cfg (innerGrid cfg g) c).2.2 = true) :
    ((update cfg g).atL cfg.type c =
      some (if min (scanAt cfg (innerGrid cfg g) c).2.1
              (((Int.tdiv ((scanAt cfg (innerGrid cfg g) c).1 : ℤ)
                  cfg.nCellCritical : ℤ) : ℚ)
                * (scanAt cfg (innerGrid cfg g) c).2.1) < cfg.criticalValue
            then 1 - min (scanAt cfg (innerGrid cfg g) c).2.1
              (((Int.tdiv ((scanAt cfg (innerGrid cfg g) c).1 : ℤ)
                  cfg.nCellCritical : ℤ) : ℚ)
                * (scanAt cfg (innerGrid cfg g) c).2.1) / cfg.criticalValue
            else 0))
    ∧ (((scanAt cfg (innerGrid cfg g) c).1 : ℤ) < cfg.nCellCritical →
        (update cfg g).atL cfg.type c = some 1) := by
  have h := update_at cfg g c hty hc
  rw [if_pos hv] at h
  constructor
  · rw [h]
    rfl
  · intro hn
    rw [h]
    have hm : 0 ≤ (scanAt cfg (innerGrid cfg g) c).2.1 :=
      scan2_m_nonneg cfg (innerGrid cfg g) _ (0, 0, false) (le_refl 0)
    rw [costOf_eq_one cfg _ _ hcv hk hm hn]

/-- C4: under a valid configuration (`criticalValue > 0`,
`nCellCritical > 0`), every cell of the output layer is either unset or
holds a value in `[0, 1]`, and it is set exactly when some cell of its
second-window disc carries a valid `step_height`. -/
theorem claim_C4 (cfg : Config) (g : Grid) (c : Cell)
    (hty : cfg.type ≠ "step_height") (hc : c ∈ g.geom.cells)
    (hcv : 0 < cfg.criticalValue) (hk : 0 < cfg.nCellCritical) :
    ((update cfg g).atL cfg.type c = none ∨
      ∃ x, (update cfg g).atL cfg.type c = some x ∧ 0 ≤ x ∧ x ≤ 1)
    ∧ ((update cfg g).atL cfg.type c ≠ none ↔
        ∃ c2 ∈ g.geom.disc (g.geom.pos c) cfg.secondWindowRadius,
          (innerGrid cfg g).atL "step_height" c2 ≠ none) := by
  have h := update_at cfg g c hty hc
  have hdisc : (innerGrid cfg g).geom.disc ((innerGrid cfg g).geom.pos c)
      cfg.secondWindowRadius
      = g.geom.disc (g.geom.pos c) cfg.secondWindowRadius := by
    rw [innerGrid_geom]
  have hs : scanAt cfg (innerGrid cfg g) c
      = scan2 cfg (innerGrid cfg g)
          (g.geom.disc (g.geom.pos c) cfg.secondWindowRadius) := by
    unfold scanAt
    rw [hdisc]
  have h2 := scan2_valid_iff cfg (innerGrid cfg g)
    (g.geom.disc (g.geom.pos c) cfg.secondWindowRadius) (0, 0, false)
  simp only [Bool.false_eq_true, false_or] at h2
  by_cases hv : (scanAt cfg (innerGrid cfg g) c).2.2 = true
  · rw [if_pos hv] at h
    have hm : 0 ≤ (scanAt cfg (innerGrid cfg g) c).2.1 :=
      scan2_m_nonneg cfg (innerGrid cfg g) _ (0, 0, false) (le_refl 0)
    constructor
    · exact Or.inr ⟨_, h, costOf_bounds cfg _ _ hcv hk hm⟩
    · constructor
      · intro _
        rw [hs] at hv
        exact h2.mp hv
      · intro _
        rw [h]
        exact Option.some_ne_none _
  · rw [if_neg hv] at h
    constructor
    · exact Or.inl h
    · constructor
      · intro hne
        exact absurd h hne
      · intro hex
        exfalso
        apply hv
        rw [hs]
        exact h2.mpr hex

/-- C10: the second pass visits every cell without checking that cell's own
elevation: a cell with invalid elevation (whose own `step_height` is
therefore unset) still receives a valid output cost as soon as one cell of
its second-window disc carries a valid `step_height`. -/
theorem claim_C10 (cfg : Config) (g : Grid) (c : Cell)
    (hty : cfg.type ≠ "step_height") (hc : c ∈ g.geom.cells)
    (helev : g.atL "elevation" c = none)
    (hex : ∃ c2 ∈ g.geom.disc (g.geom.pos c) cfg.secondWindowRadius,
        (innerGrid cfg g).atL "step_height" c2 ≠ none) :
    (innerGrid cfg g).atL "step_height" c = none
    ∧ (update cfg g).atL cfg.type c ≠ none := by
  constructor
  · have hbase : (Grid.add (Grid.add g cfg.type) "step_height").atL
        "elevation" c = none := by
      show layerAt (addL (addL g.layers cfg.type) "step_height")
        "elevation" c = none
      rw [layerAt_addL_ne _ _ _ _ (by decide)]
      by_cases hte : cfg.type = "elevation"
      · rw [← hte]
        exact layerAt_addL_same _ _ _
      · rw [layerAt_addL_ne _ _ _ _ (fun hh => hte hh.symm)]
        exact helev
    have h0 : (Grid.add (Grid.add g cfg.type) "step_height").atL
        "step_height" c = none := layerAt_addL_same _ _ _
    have hp := pass1_at cfg (Grid.add (Grid.add g cfg.type) "step_height") c
      (mem_namesOf_addL_self _ _) hc
    rw [h0] at hp
    show (pass1 cfg (Grid.add (Grid.add g cfg.type) "step_height")).atL
      "step_height" c = none
    rw [hp]
    unfold pass1Out
    rw [hbase]
    rfl
  · have h := update_at cfg g c hty hc
    have hdisc : (innerGrid cfg g).geom.disc ((innerGrid cfg g).geom.pos c)
        cfg.secondWindowRadius
        = g.geom.disc (g.geom.pos c) cfg.secondWindowRadius := by
      rw [innerGrid_geom]
    have h2 := scan2_valid_iff cfg (innerGrid cfg g)
      (g.geom.disc (g.geom.pos c) cfg.secondWindowRadius) (0, 0, false)
    simp only [Bool.false_eq_true, false_or] at h2
    have hv : (scanAt cfg (innerGrid cfg g) c).2.2 = true := by
      show (scan2 cfg (innerGrid cfg g) ((innerGrid cfg g).geom.disc
        ((innerGrid cfg g).geom.pos c) cfg.secondWindowRadius)).2.2 = true
      rw [hdisc]
      exact h2.mpr hex
    rw [h, if_pos hv]
    exact Option.some_ne_none _

/-- C5 (amended): `configure` succeeds iff all five parameters are present
and the stored values pass the checks the code actually performs:
`criticalValue ≥ 0`, `firstWindowRadius ≥ 0`, `secondWindowRadius ≥ 0`,
`nCellCritical > 0`; zero is accepted for the three `double` parameters
(the checks are `< 0.0` despite the error messages demanding `> 0`) and
the output layer name is never checked for emptiness. -/
theorem claim_C5_amended (p : ParamSource) (s : Config) :
    (configure p s).1 = true ↔
      ((∃ cv, p.critical_value = some cv ∧ 0 ≤ cv) ∧
       (∃ r, p.first_window_radius = some r ∧ 0 ≤ r) ∧
       (∃ r, p.second_window_radius = some r ∧ 0 ≤ r) ∧
       (∃ k, p.critical_cell_number = some k ∧ 0 < k) ∧
       (∃ t, p.map_type = some t)) := by
  obtain ⟨cv, r1, r2, k, t⟩ := p
  unfold configure
  dsimp only
  cases cv with
  | none => simp
  | some a =>
    dsimp only
    by_cases ha : a < 0
    · rw [if_pos ha]
      simp [not_le.mpr ha]
    · rw [if_neg ha]
      cases r1 with
      | none => simp
      | some b =>
        dsimp only
        by_cases hb : b < 0
        · rw [if_pos hb]
          simp [not_le.mpr hb]
        · rw [if_neg hb]
          cases r2 with
          | none => simp
          | some d =>
            dsimp only
            by_cases hd : d < 0
            · rw [if_pos hd]
              simp [not_le.mpr hd]
            · rw [if_neg hd]
              cases k with
              | none => simp
              | some e =>
                dsimp only
                by_cases he : e ≤ 0
                · rw [if_pos he]
                  simp [not_lt.mpr he]
                · rw [if_neg he]
                  cases t with
                  | none => simp
                  | some f =>
                    simp [not_lt.mp ha, not_lt.mp hb, not_lt.mp hd,
                      not_le.mp he]

/-- C6 (amended): when `configure` fails at a later parameter, the values
read before the failure stay stored: with `critical_value` present and
`first_window_radius` missing, the call fails but leaves the filter state
with the new `criticalValue` (partial configuration is retained). -/
theorem claim_C6_amended (s : Config) (cv : ℚ) (p : ParamSource)
    (h1 : p.critical_value = some cv) (h2 : p.first_window_radius = none) :
    (configure p s).1 = false
    ∧ (configure p s).2 = { s with criticalValue := cv } := by
  unfold configure
  rw [h1, h2]
  dsimp only
  by_cases hcv : cv < 0
  · rw [if_pos hcv]
    exact ⟨rfl, rfl⟩
  · rw [if_neg hcv]
    exact ⟨rfl, rfl⟩

/-- C7 (amended): provided the input raster carries no layer named
`step_height` and the configured output name is fresh (not a layer of the
input and not `step_height`), the result of `update` carries exactly the
input's layers plus the output layer, in order, and every input layer's
values are unchanged. -/
theorem claim_C7_amended (cfg : Config) (g : Grid)
    (h1 : "step_height" ∉ namesOf g.layers)
    (h2 : cfg.type ∉ namesOf g.layers)
    (h3 : cfg.type ≠ "step_height") :
    namesOf (update cfg g).layers = namesOf g.layers ++ [cfg.type]
    ∧ ∀ nm ∈ namesOf g.layers, ∀ c, (update cfg g).atL nm c = g.atL nm c := by
  constructor
  · show namesOf (eraseL (pass2 cfg (pass1 cfg
      (Grid.add (Grid.add g cfg.type) "step_height"))).layers
      "step_height") = _
    rw [namesOf_eraseL, pass2_names, pass1_names]
    have hA : namesOf (addL g.layers cfg.type)
        = namesOf g.layers ++ [cfg.type] := namesOf_addL_not_mem _ _ h2
    have hB : "step_height" ∉ namesOf (addL g.layers cfg.type) := by
      rw [hA]
      simp only [List.mem_append, List.mem_singleton]
      push_neg
      exact ⟨h1, Ne.symm h3⟩
    show (namesOf (addL (addL g.layers cfg.type) "step_height")).erase
      "step_height" = _
    rw [namesOf_addL_not_mem _ _ hB, hA, List.erase_append_right _ (hA ▸ hB)]
    simp
  · intro nm hnm c
    have hnmty : nm ≠ cfg.type := fun hh => h2 (hh ▸ hnm)
    have hnmsh : nm ≠ "step_height" := fun hh => h1 (hh ▸ hnm)
    have e1 : (update cfg g).atL nm c
        = (pass2 cfg (innerGrid cfg g)).atL nm c :=
      layerAt_eraseL_ne _ _ _ _ hnmsh
    rw [e1, pass2_atL_ne cfg _ nm c hnmty]
    show (pass1 cfg (Grid.add (Grid.add g cfg.type) "step_height")).atL
      nm c = g.atL nm c
    rw [pass1_atL_ne cfg _ nm c hnmsh]
    show layerAt (addL (addL g.layers cfg.type) "step_height") nm c
      = layerAt g.layers nm c
    rw [layerAt_addL_ne _ _ _ _ hnmsh, layerAt_addL_ne _ _ _ _ hnmty]

/-- C8 (amended): holding everything else fixed, increasing
`criticalValue` preserves which output cells are set and can only move a
set cell's cost toward `1` or leave it unchanged (the output is weakly
increasing in `criticalValue`, not decreasing toward `0`). -/
theorem claim_C8_amended (cfg : Config) (cv2 : ℚ) (g : Grid) (c : Cell)
    (hty : cfg.type ≠ "step_height") (hc : c ∈ g.geom.cells)
    (hcv : 0 < cfg.criticalValue) (hk : 0 < cfg.nCellCritical)
    (hle : cfg.criticalValue ≤ cv2) :
    ((update cfg g).atL cfg.type c = none ↔
      (update { cfg with criticalValue := cv2 } g).atL cfg.type c = none)
    ∧ ∀ x x2, (update cfg g).atL cfg.type c = some x →
        (update { cfg with criticalValue := cv2 } g).atL cfg.type c = some x2 →
        x ≤ x2 := by
  have h1 := update_at cfg g c hty hc
  have h2 := update_at { cfg with criticalValue := cv2 } g c hty hc
  have hscan := scan2_cv_le cfg cv2 hle (innerGrid cfg g)
    ((innerGrid cfg g).geom.disc ((innerGrid cfg g).geom.pos c)
      cfg.secondWindowRadius) (0, 0, false) (0, 0, false) rfl (le_refl 0)
  have hsnd : (scanAt { cfg with criticalValue := cv2 } (innerGrid cfg g) c).2
      = (scanAt cfg (innerGrid cfg g) c).2 := hscan.1
  have hfst : (scanAt { cfg with criticalValue := cv2 } (innerGrid cfg g) c).1
      ≤ (scanAt cfg (innerGrid cfg g) c).1 := hscan.2
  have hinner : innerGrid { cfg with criticalValue := cv2 } g
      = innerGrid cfg g := rfl
  rw [hinner] at h2
  by_cases hv : (scanAt cfg (innerGrid cfg g) c).2.2 = true
  · have hv2 : (scanAt { cfg with criticalValue := cv2 }
        (innerGrid cfg g) c).2.2 = true := by
      rw [hsnd]
      exact hv
    rw [if_pos hv] at h1
    rw [if_pos hv2] at h2
    constructor
    · rw [h1, h2]
      simp
    · intro x x2 hx hx2
      rw [h1] at hx
      rw [h2] at hx2
      injection hx with hx
      injection hx2 with hx2
      subst hx
      subst hx2
      have hm : 0 ≤ (scanAt cfg (innerGrid cfg g) c).2.1 :=
        scan2_m_nonneg cfg (innerGrid cfg g) _ (0, 0, false) (le_refl 0)
      have hmeq : (scanAt { cfg with criticalValue := cv2 }
          (innerGrid cfg g) c).2.1 = (scanAt cfg (innerGrid cfg g) c).2.1 := by
        rw [hsnd]
      rw [hmeq]
      exact costOf_cv_mono cfg cv2 _ _ _ hcv hle hk hm hfst
  · have hv2 : ¬ (scanAt { cfg with criticalValue := cv2 }
        (innerGrid cfg g) c).2.2 = true := by
      rw [hsnd]
      exact hv
    rw [if_neg hv] at h1
    rw [if_neg hv2] at h2
    constructor
    · rw [h1, h2]
    · intro x x2 hx hx2
      rw [h1] at hx
      cases hx

unseal Rat.add Rat.mul Rat.inv Rat.sub Rat.ofScientific in
/-- C5 (counterexample): `configure` accepts `pzero` — zero critical value,
zero radii and an empty output layer name — although the claimed contract
(`specConfigureOk`) rejects it; so success is not equivalent to the claimed
constraints. -/
theorem claim_C5_counterexample :
    (configure pzero initialState).1 = true ∧ ¬ specConfigureOk pzero := by
  constructor
  · decide
  · rintro ⟨⟨cv, hcv, hpos⟩, -⟩
    have hcv0 : cv = 0 := by
      have : (some (0 : ℚ) : Option ℚ) = some cv := hcv
      exact (Option.some.injEq _ _ ▸ this).symm
    rw [hcv0] at hpos
    exact lt_irrefl 0 hpos

unseal Rat.add Rat.mul Rat.inv Rat.sub Rat.ofScientific in
/-- C6 (counterexample): the failing call `configure pone initialState`
(missing `first_window_radius`) does not leave the stored configuration
unchanged: the previously read `critical_value = 1` is retained. -/
theorem claim_C6_counterexample :
    (configure pone initialState).1 = false
    ∧ (configure pone initialState).2 ≠ initialState := by
  decide

/-- C6 witness: the amended retention statement at the concrete failing
call. -/
theorem claim_C6_witness :
    (pone.critical_value = some 1 ∧ pone.first_window_radius = none)
    ∧ ((configure pone initialState).1 = false
      ∧ (configure pone initialState).2
          = { initialState with criticalValue := 1 }) :=
  ⟨⟨rfl, rfl⟩, claim_C6_amended initialState 1 pone rfl rfl⟩

unseal Rat.add Rat.mul Rat.inv Rat.sub Rat.ofScientific in
/-- C7 (counterexample): on an input raster that already carries a
`step_height` layer, the result of `update` does not carry exactly the
input's layers plus the output layer — the input's `step_height` layer is
destroyed and erased. -/
theorem claim_C7_counterexample :
    "step_height" ∈ namesOf gBad.layers
    ∧ "step_height" ∉ namesOf (update cfgA gBad).layers := by
  decide

unseal Rat.add Rat.mul Rat.inv Rat.sub Rat.ofScientific in
/-- C7 witness: the amended frame condition at a concrete raster. -/
theorem claim_C7_witness :
    ("step_height" ∉ namesOf g13.layers ∧ cfgA.type ∉ namesOf g13.layers
      ∧ cfgA.type ≠ "step_height")
    ∧ (namesOf (update cfgA g13).layers = namesOf g13.layers ++ [cfgA.type]
      ∧ ∀ nm ∈ namesOf g13.layers, ∀ c,
          (update cfgA g13).atL nm c = g13.atL nm c) :=
  ⟨⟨by decide, by decide, by decide⟩,
    claim_C7_amended cfgA g13 (by decide) (by decide) (by decide)⟩

unseal Rat.add Rat.mul Rat.inv Rat.sub Rat.ofScientific in
/-- C8 (counterexample): increasing `criticalValue` from `0.3` to `2`
(everything else fixed) moves the output cost at cell `(0,1)` of the spike
raster from `0` to `1` — away from `0`, contradicting the claimed
direction of monotonicity. -/
theorem claim_C8_counterexample :
    cfgA.criticalValue ≤ (2 : ℚ)
    ∧ (update cfgA g3).atL cfgA.type (0, 1) = some 0
    ∧ (update { cfgA with criticalValue := 2 } g3).atL cfgA.type (0, 1)
        = some 1
    ∧ ¬ ((1 : ℚ) ≤ 0) := by
  decide

unseal Rat.add Rat.mul Rat.inv Rat.sub Rat.ofScientific in
/-- C9 (amended): in the spike raster `g3` (spike height 1 > criticalValue
0.3, first window covering the orthogonal neighbors), the spike's own
`step_height` is 1 and, because `nCellCritical = 1` lets the single
critical running-maximum crossing survive the integer division, every
orthogonal neighbor within the second window of the spike receives output
cost 0. -/
theorem claim_C9_amended :
    g3.atL "elevation" (1, 1) = some 1
    ∧ cfgA.criticalValue < |(1 : ℚ)|
    ∧ (innerGrid cfgA g3).atL "step_height" (1, 1) = some 1
    ∧ ((0, 1) : Cell) ∈ g3.geom.disc (g3.geom.pos (1, 1)) cfgA.secondWindowRadius
    ∧ ((1, 0) : Cell) ∈ g3.geom.disc (g3.geom.pos (1, 1)) cfgA.secondWindowRadius
    ∧ ((1, 2) : Cell) ∈ g3.geom.disc (g3.geom.pos (1, 1)) cfgA.secondWindowRadius
    ∧ ((2, 1) : Cell) ∈ g3.geom.disc (g3.geom.pos (1, 1)) cfgA.secondWindowRadius
    ∧ (update cfgA g3).atL cfgA.type (0, 1) = some 0
    ∧ (update cfgA g3).atL cfgA.type (1, 0) = some 0
    ∧ (update cfgA g3).atL cfgA.type (1, 2) = some 0
    ∧ (update cfgA g3).atL cfgA.type (2, 1) = some 0 := by
  decide

unseal Rat.add Rat.mul Rat.inv Rat.sub Rat.ofScientific in
/-- C9 (counterexample): the same spike scenario under the equally valid
configuration `cfgB` (`nCellCritical = 2`): the neighbor `(0,1)` lies in
the spike's second window and `stepMax = 1 > criticalValue`, yet its
output cost is `1`, not `0` — the truncated `nCells / nCellCritical`
collapses the dampening term. -/
theorem claim_C9_counterexample :
    cfgB.criticalValue < |(1 : ℚ)|
    ∧ 0 < cfgB.nCellCritical
    ∧ ((0, 1) : Cell) ∈ g3.geom.disc (g3.geom.pos (1, 1)) cfgB.secondWindowRadius
    ∧ (update cfgB g3).atL cfgB.type (0, 1) = some 1
    ∧ ¬ (update cfgB g3).atL cfgB.type (0, 1) = some 0 := by
  decide

unseal Rat.add Rat.mul Rat.inv Rat.sub Rat.ofScientific in
/-- C1 witness: the cost formula at cell `(0,1)` of `g13` under `cfgA`. -/
theorem claim_C1_witness :
    (cfgA.type ≠ "step_height" ∧ ((0, 1) : Cell) ∈ g13.geom.cells
      ∧ 0 < cfgA.criticalValue ∧ 0 < cfgA.nCellCritical
      ∧ (scanAt cfgA (innerGrid cfgA g13) (0, 1)).2.2 = true)
    ∧ (((update cfgA g13).atL cfgA.type (0, 1) =
        some (if min (scanAt cfgA (innerGrid cfgA g13) (0, 1)).2.1
                (((Int.tdiv ((scanAt cfgA (innerGrid cfgA g13) (0, 1)).1 : ℤ)
                    cfgA.nCellCritical : ℤ) : ℚ)
                  * (scanAt cfgA (innerGrid cfgA g13) (0, 1)).2.1)
                < cfgA.criticalValue
              then 1 - min (scanAt cfgA (innerGrid cfgA g13) (0, 1)).2.1
                (((Int.tdiv ((scanAt cfgA (innerGrid cfgA g13) (0, 1)).1 : ℤ)
                    cfgA.nCellCritical : ℤ) : ℚ)
                  * (scanAt cfgA (innerGrid cfgA g13) (0, 1)).2.1)
                / cfgA.criticalValue
              else 0))
      ∧ (((scanAt cfgA (innerGrid cfgA g13) (0, 1)).1 : ℤ)
            < cfgA.nCellCritical →
          (update cfgA g13).atL cfgA.type (0, 1) = some 1)) :=
  ⟨⟨by decide, by decide, by decide, by decide, by decide⟩,
    claim_C1 cfgA g13 (0, 1) (by decide) (by decide) (by decide) (by decide)
      (by decide)⟩

unseal Rat.add Rat.mul Rat.inv Rat.sub Rat.ofScientific in
/-- C2 witness: the step-height characterization at cell `(0,1)` of the
raster `gP` (`g13` with its fresh `step_height` layer). -/
theorem claim_C2_witness :
    ("step_height" ∈ namesOf gP.layers ∧ ((0, 1) : Cell) ∈ gP.geom.cells
      ∧ gP.atL "step_height" (0, 1) = none)
    ∧ ((gP.atL "elevation" (0, 1) = none →
          (pass1 cfgA gP).atL "step_height" (0, 1) = none)
      ∧ ∀ hgt, gP.atL "elevation" (0, 1) = some hgt →
          (0 < maxStep gP cfgA.firstWindowRadius (0, 1) hgt →
            (pass1 cfgA gP).atL "step_height" (0, 1)
              = some (maxStep gP cfgA.firstWindowRadius (0, 1) hgt))
          ∧ (¬ 0 < maxStep gP cfgA.firstWindowRadius (0, 1) hgt →
            (pass1 cfgA gP).atL "step_height" (0, 1) = none)
          ∧ (∀ s ∈ stepCandidates gP cfgA.firstWindowRadius (0, 1) hgt,
              s ≤ maxStep gP cfgA.firstWindowRadius (0, 1) hgt)
          ∧ maxStep gP cfgA.firstWindowRadius (0, 1) hgt
              ∈ stepCandidates gP cfgA.firstWindowRadius (0, 1) hgt
          ∧ (0 : ℚ) ∈ stepCandidates gP cfgA.firstWindowRadius (0, 1) hgt) :=
  ⟨⟨by decide, by decide, by decide⟩,
    claim_C2 cfgA gP (0, 1) (by decide) (by decide) (by decide)⟩

unseal Rat.add Rat.mul Rat.inv Rat.sub Rat.ofScientific in
/-- C4 witness: range and validity of the output at cell `(0,1)` of
`g13`. -/
theorem claim_C4_witness :
    (cfgA.type ≠ "step_height" ∧ ((0, 1) : Cell) ∈ g13.geom.cells
      ∧ 0 < cfgA.criticalValue ∧ 0 < cfgA.nCellCritical)
    ∧ (((update cfgA g13).atL cfgA.type (0, 1) = none ∨
        ∃ x, (update cfgA g13).atL cfgA.type (0, 1) = some x ∧ 0 ≤ x ∧ x ≤ 1)
      ∧ ((update cfgA g13).atL cfgA.type (0, 1) ≠ none ↔
          ∃ c2 ∈ g13.geom.disc (g13.geom.pos (0, 1)) cfgA.secondWindowRadius,
            (innerGrid cfgA g13).atL "step_height" c2 ≠ none)) :=
  ⟨⟨by decide, by decide, by decide, by decide⟩,
    claim_C4 cfgA g13 (0, 1) (by decide) (by decide) (by decide) (by decide)⟩

unseal Rat.add Rat.mul Rat.inv Rat.sub Rat.ofScientific in
/-- C8 witness: the corrected monotonicity at cell `(0,1)` of the spike
raster, raising `criticalValue` from `0.3` to `2`. -/
theorem claim_C8_witness :
    (cfgA.type ≠ "step_height" ∧ ((0, 1) : Cell) ∈ g3.geom.cells
      ∧ 0 < cfgA.criticalValue ∧ 0 < cfgA.nCellCritical
      ∧ cfgA.criticalValue ≤ (2 : ℚ))
    ∧ (((update cfgA g3).atL cfgA.type (0, 1) = none ↔
        (update { cfgA with criticalValue := 2 } g3).atL cfgA.type (0, 1)
          = none)
      ∧ ∀ x x2, (update cfgA g3).atL cfgA.type (0, 1) = some x →
          (update { cfgA with criticalValue := 2 } g3).atL cfgA.type (0, 1)
            = some x2 → x ≤ x2) :=
  ⟨⟨by decide, by decide, by decide, by decide, by decide⟩,
    claim_C8_amended cfgA 2 g3 (0, 1) (by decide) (by decide) (by decide)
      (by decide) (by decide)⟩

unseal Rat.add Rat.mul Rat.inv Rat.sub Rat.ofScientific in
/-- C10 witness: cell `(0,0)` of `g13` has invalid elevation yet receives a
valid output, since `(0,1)` in its second window carries a valid
`step_height`. -/
theorem claim_C10_witness :
    (cfgA.type ≠ "step_height" ∧ ((0, 0) : Cell) ∈ g13.geom.cells
      ∧ g13.atL "elevation" (0, 0) = none
      ∧ ∃ c2 ∈ g13.geom.disc (g13.geom.pos (0, 0)) cfgA.secondWindowRadius,
          (innerGrid cfgA g13).atL "step_height" c2 ≠ none)
    ∧ ((innerGrid cfgA g13).atL "step_height" (0, 0) = none
      ∧ (update cfgA g13).atL cfgA.type (0, 0) ≠ none) :=
  ⟨⟨by decide, by decide, by decide, by decide⟩,
    claim_C10 cfgA g13 (0, 0) (by decide) (by decide) (by decide) (by decide)⟩
